import Mathlib

set_option maxRecDepth 100000

/-!
Verification development for the maritime news scraper
(`scrape_maritime_news.py`).  The Python program is shallowly embedded:
Python values that can be absent, null, strings, dicts or lists are the
inductive type `PyVal`; fallible Python code (attribute errors on
`None.get`, unhandled exceptions in the scraping loop) is embedded with
`Except String`; the network is an oracle parameter
`net : Params → Except String PyVal`; the clock is a string parameter.
`hashlib.md5(...).hexdigest()` is embedded by a full MD5 implementation
over lists of byte values (`Nat`, reduced mod 2^32 where the source
wraps), and `str.encode` by a UTF-8 encoder.
-/

/-! ### MD5 (RFC 1321), over `List Nat` of byte values -/

/-- 2^32, the modulus of MD5 word arithmetic. -/
def M32 : Nat := 4294967296

/-- Truncate to a 32-bit word. -/
def mask32 (x : Nat) : Nat := x % M32

/-- Rotate a 32-bit word left by `s` bits. -/
def rotl32 (x s : Nat) : Nat := mask32 (x <<< s) ||| (x >>> (32 - s))

/-- Bitwise complement of a 32-bit word. -/
def not32 (x : Nat) : Nat := x ^^^ 4294967295

/-- The 64 MD5 sine-derived constants `K[i] = floor(2^32 * abs(sin(i+1)))`. -/
def md5K : List Nat :=
  [3614090360, 3905402710, 606105819, 3250441966, 4118548399, 1200080426,
   2821735955, 4249261313, 1770035416, 2336552879, 4294925233, 2304563134,
   1804603682, 4254626195, 2792965006, 1236535329, 4129170786, 3225465664,
   643717713, 3921069994, 3593408605, 38016083, 3634488961, 3889429448,
   568446438, 3275163606, 4107603335, 1163531501, 2850285829, 4243563512,
   1735328473, 2368359562, 4294588738, 2272392833, 1839030562, 4259657740,
   2763975236, 1272893353, 4139469664, 3200236656, 681279174, 3936430074,
   3572445317, 76029189, 3654602809, 3873151461, 530742520, 3299628645,
   4096336452, 1126891415, 2878612391, 4237533241, 1700485571, 2399980690,
   4293915773, 2240044497, 1873313359, 4264355552, 2734768916, 1309151649,
   4149444226, 3174756917, 718787259, 3951481745]

/-- The 64 MD5 per-round rotation amounts. -/
def md5S : List Nat :=
  [7, 12, 17, 22, 7, 12, 17, 22, 7, 12, 17, 22, 7, 12, 17, 22,
   5, 9, 14, 20, 5, 9, 14, 20, 5, 9, 14, 20, 5, 9, 14, 20,
   4, 11, 16, 23, 4, 11, 16, 23, 4, 11, 16, 23, 4, 11, 16, 23,
   6, 10, 15, 21, 6, 10, 15, 21, 6, 10, 15, 21, 6, 10, 15, 21]

/-- The MD5 round function applied at round `i` to words `b c d`. -/
def md5F (i b c d : Nat) : Nat :=
  if i < 16 then (b &&& c) ||| (not32 b &&& d)
  else if i < 32 then (d &&& b) ||| (not32 d &&& c)
  else if i < 48 then b ^^^ c ^^^ d
  else c ^^^ (b ||| not32 d)

/-- The MD5 message-word index used at round `i`. -/
def md5G (i : Nat) : Nat :=
  if i < 16 then i
  else if i < 32 then (5 * i + 1) % 16
  else if i < 48 then (3 * i + 5) % 16
  else (7 * i) % 16

/-- One MD5 round: state `(a, b, c, d)`, message accessor `M`, round `i`. -/
def md5Round (M : Nat → Nat) (st : Nat × Nat × Nat × Nat) (i : Nat) :
    Nat × Nat × Nat × Nat :=
  let (a, b, c, d) := st
  let f := mask32 (md5F i b c d + a + md5K.getD i 0 + M (md5G i))
  (d, mask32 (b + rotl32 f (md5S.getD i 0)), b, c)

/-- Read a little-endian 32-bit word from four bytes of a block. -/
def leWord (block : List Nat) (j : Nat) : Nat :=
  block.getD (4 * j) 0 + 256 * block.getD (4 * j + 1) 0 +
    65536 * block.getD (4 * j + 2) 0 + 16777216 * block.getD (4 * j + 3) 0

/-- Process one 64-byte block, updating the MD5 chaining state. -/
def md5Compress (st : Nat × Nat × Nat × Nat) (block : List Nat) :
    Nat × Nat × Nat × Nat :=
  let (a0, b0, c0, d0) := st
  let (a, b, c, d) := (List.range 64).foldl (md5Round (leWord block)) st
  (mask32 (a0 + a), mask32 (b0 + b), mask32 (c0 + c), mask32 (d0 + d))

/-- The `n` little-endian bytes of `x`. -/
def leBytes : Nat → Nat → List Nat
  | 0, _ => []
  | n + 1, x => x % 256 :: leBytes n (x / 256)

/-- MD5 padding: `0x80`, zeros to 56 mod 64, then the 8-byte bit length. -/
def md5Pad (msg : List Nat) : List Nat :=
  msg ++ 128 :: List.replicate ((119 - msg.length % 64) % 64) 0 ++
    leBytes 8 (8 * msg.length)

/-- Split a byte list into 64-byte chunks (fuel-structured recursion;
the fuel `n` bounds the list length). -/
def chunksAux : Nat → List Nat → List (List Nat)
  | 0, _ => []
  | _, [] => []
  | n + 1, x :: xs => (x :: xs).take 64 :: chunksAux n ((x :: xs).drop 64)

/-- Split a byte list into 64-byte chunks. -/
def chunks64 (l : List Nat) : List (List Nat) := chunksAux l.length l

/-- The 16 digest bytes of a byte message. -/
def md5Bytes (msg : List Nat) : List Nat :=
  let (a, b, c, d) :=
    (chunks64 (md5Pad msg)).foldl md5Compress
      (1732584193, 4023233417, 2562383102, 271733878)
  leBytes 4 a ++ leBytes 4 b ++ leBytes 4 c ++ leBytes 4 d

/-- Lowercase hexadecimal digit for a value below 16. -/
def hexDigit (n : Nat) : Char :=
  if n < 10 then Char.ofNat (48 + n) else Char.ofNat (87 + n)

/-- Two lowercase hexadecimal digits of a byte. -/
def byteHex (b : Nat) : String :=
  String.mk [hexDigit (b / 16), hexDigit (b % 16)]

/-- Lowercase hexadecimal MD5 digest of a byte message,
mirroring `hashlib.md5(bytes).hexdigest()`. -/
def md5Hex (msg : List Nat) : String :=
  String.join ((md5Bytes msg).map byteHex)

/-! ### UTF-8 encoding, mirroring `str.encode("utf-8")` -/

/-- UTF-8 bytes of one Unicode scalar value. -/
def utf8Char (c : Char) : List Nat :=
  let n := c.toNat
  if n < 128 then [n]
  else if n < 2048 then [192 ||| (n >>> 6), 128 ||| (n &&& 63)]
  else if n < 65536 then
    [224 ||| (n >>> 12), 128 ||| ((n >>> 6) &&& 63), 128 ||| (n &&& 63)]
  else
    [240 ||| (n >>> 18), 128 ||| ((n >>> 12) &&& 63),
     128 ||| ((n >>> 6) &&& 63), 128 ||| (n &&& 63)]

/-- UTF-8 bytes of a string. -/
def utf8Bytes (s : String) : List Nat :=
  (s.toList.map utf8Char).flatten

/-! ### Python values

The raw API payloads are JSON decoded by Python: a value is `None`, a
string, a dict or a list.  (Numbers and booleans do not occur in the
fields this program touches and are not modelled.) -/

/-- A decoded Python/JSON value as handled by the scraper. -/
inductive PyVal where
  | none : PyVal
  | str (s : String) : PyVal
  | dict (es : List (String × PyVal)) : PyVal
  | list (xs : List PyVal) : PyVal

/-- Look up a key in a dict body, `Option`-valued (`k in d` view). -/
def dictFind (es : List (String × PyVal)) (k : String) : Option PyVal :=
  (es.find? (fun e => e.1 == k)).map (fun e => e.2)

/-- Embedding of `es.get(k, d)` on a dict body: the stored value if the key is
present (even when that value is `None`), else the default. -/
def dictGet (es : List (String × PyVal)) (k : String) (d : PyVal) : PyVal :=
  (dictFind es k).getD d

/-- Embedding of `v.get(k, d)` on an arbitrary value: dicts answer, every other
value (including `None`) raises `AttributeError`. -/
def pyGetD (v : PyVal) (k : String) (d : PyVal) : Except String PyVal :=
  match v with
  | PyVal.dict es => Except.ok (dictGet es k d)
  | _ => Except.error "AttributeError: object has no attribute get"

/-- Python truthiness of a value: `None`, empty strings and empty
containers are falsy. -/
def truthy : PyVal → Bool
  | PyVal.none => false
  | PyVal.str s => !(s == "")
  | PyVal.dict es => !es.isEmpty
  | PyVal.list xs => !xs.isEmpty

/-- The single-quote character, written by code point to keep the
development free of quote-literal pitfalls. -/
def quoteChar : Char := Char.ofNat 39

/-- The backslash character. -/
def backslashChar : Char := Char.ofNat 92

/-- Escape one character for `repr` of a Python string (backslash and
the quote character; the repr of non-printables and the alternate-quote
preference of CPython are not needed on any value this program meets). -/
def reprEsc (c : Char) : List Char :=
  if c = backslashChar then [backslashChar, backslashChar]
  else if c = quoteChar then [backslashChar, quoteChar]
  else [c]

/-- Python `repr` of a string: single-quoted, escaped. -/
def pyStrRepr (s : String) : String :=
  String.mk (quoteChar :: (s.toList.map reprEsc).flatten ++ [quoteChar])

mutual

/-- Python `repr` of a value, as used inside container formatting. -/
def pyRepr : PyVal → String
  | PyVal.none => "None"
  | PyVal.str s => pyStrRepr s
  | PyVal.dict es => "\x7b" ++ reprEntries es ++ "\x7d"
  | PyVal.list xs => "[" ++ reprItems xs ++ "]"

/-- Comma-separated `repr` of dict entries. -/
def reprEntries : List (String × PyVal) → String
  | [] => ""
  | [(k, v)] => pyStrRepr k ++ ": " ++ pyRepr v
  | (k, v) :: e :: es => pyStrRepr k ++ ": " ++ pyRepr v ++ ", " ++ reprEntries (e :: es)

/-- Comma-separated `repr` of list items. -/
def reprItems : List PyVal → String
  | [] => ""
  | [v] => pyRepr v
  | v :: w :: xs => pyRepr v ++ ", " ++ reprItems (w :: xs)

end

/-- Python `str(v)` as applied by an f-string interpolation:
strings verbatim, `None` prints as `None`, containers via `repr`. -/
def pyFstr : PyVal → String
  | PyVal.none => "None"
  | PyVal.str s => s
  | PyVal.dict es => "\x7b" ++ reprEntries es ++ "\x7d"
  | PyVal.list xs => "[" ++ reprItems xs ++ "]"

/-! ### Normalizer: `create_article_id` and `process_article`
(`scrape_maritime_news.py` lines 117-135) -/

/-- Embedding of `create_article_id` (lines 117-120): the MD5 hex
digest of the UTF-8 bytes of the f-string
`f"{article.get('title', '')}{article.get('url', '')}"`.  `Except`
carries the `AttributeError` raised when `article` is not a dict. -/
def create_article_id (article : PyVal) : Except String String := do
  let t ← pyGetD article "title" (PyVal.str "")
  let u ← pyGetD article "url" (PyVal.str "")
  Except.ok (md5Hex (utf8Bytes (pyFstr t ++ pyFstr u)))

/-- The fixed output record shape built by `process_article`
(lines 124-134).  Fields copied from the raw article keep their raw
(possibly `None`) values; `article_id`, `category` and
`scrape_timestamp` are always strings. -/
structure NormalizedArticle where
  article_id : String
  title : PyVal
  link : PyVal
  creator : PyVal
  pubdate : PyVal
  category : String
  description : PyVal
  source : PyVal
  scrape_timestamp : String

/-- Embedding of `process_article` (lines 122-135).  `now` stands for
`datetime.utcnow().isoformat()`; the stored timestamp appends `Z`.
The only fallible step on a dict-shaped article is
`article.get('source', {}).get('name', '')`: when the `source` key is
present with a non-dict value (for example JSON `null`), the second
`.get` raises `AttributeError`. -/
def process_article (article : PyVal) (keyword : String) (now : String) :
    Except String NormalizedArticle := do
  let id ← create_article_id article
  let title ← pyGetD article "title" (PyVal.str "")
  let url ← pyGetD article "url" (PyVal.str "")
  let creator ← pyGetD article "author" (PyVal.str "")
  let pub ← pyGetD article "publishedAt" (PyVal.str "")
  let descr ← pyGetD article "description" (PyVal.str "")
  let src ← pyGetD article "source" (PyVal.dict [])
  let srcName ← pyGetD src "name" (PyVal.str "")
  Except.ok
    { article_id := id, title := title, link := url, creator := creator,
      pubdate := pub, category := keyword, description := descr,
      source := srcName, scrape_timestamp := now ++ "Z" }

/-! ### Fetcher: `fetch_news`

Source lines 136-164 hold `fetch_news` in a copy-paste-scrambled order
(the `params` dict and docstring sit after `process_article`'s
`return`, and the `def` line sits between the duplicated dict and the
`try` body); the pieces reconstruct one function unambiguously: build
the query params, issue `requests.get(f"{base_url}/everything",
params)`, `raise_for_status()`, return `response.json()`, and on any
`requests.RequestException` log the error and return `None`.  The
network is the oracle `net`: `Except.ok` is a decoded JSON body of a
successful request, `Except.error` is any transport or HTTP-level
failure (a `RequestException` message). -/

/-- The query parameters built by `fetch_news` (source lines 138-146);
`fromDate`/`toDate` stand for the reserved-word keys `from`/`to`. -/
structure Params where
  q : String
  fromDate : String
  toDate : String
  sortBy : String
  pageSize : Nat
  apiKey : String
  language : String

/-- The params dict of `fetch_news`: fixed sort order and language. -/
def mkParams (query from_date to_date : String) (page_size : Nat)
    (api_key : String) : Params :=
  { q := query, fromDate := from_date, toDate := to_date,
    sortBy := "publishedAt", pageSize := page_size, apiKey := api_key,
    language := "en" }

/-- A one-character string holding a single quote. -/
def sqStr : String := String.mk [quoteChar]

/-- The log line of `fetch_news`'s `except` branch. -/
def fetchErrorLog (query e : String) : String :=
  "Error fetching news for query " ++ sqStr ++ query ++ sqStr ++ ": " ++ e

/-- Embedding of `fetch_news`: the parsed payload on success, `none`
plus an error log line on any request failure.  Total by construction:
no exception escapes to the caller. -/
def fetch_news (net : Params → Except String PyVal)
    (api_key query from_date to_date : String) (page_size : Nat) :
    Option PyVal × List String :=
  match net (mkParams query from_date to_date page_size api_key) with
  | Except.ok j => (Option.some j, [])
  | Except.error e => (Option.none, [fetchErrorLog query e])

/-! ### Deduplicator and scraping loop: `scrape_all_keywords`
(source lines 166-215), decomposed per loop nesting level. -/

/-- The mutable state of one run: `all_articles` (line 174) and
`seen_ids` (line 175; the membership set is kept as a list). -/
structure ScrapeState where
  all_articles : List NormalizedArticle
  seen_ids : List String

/-- Lines 192-194 / 210-212: append the processed article and mark its
identifier seen exactly when the identifier is new; otherwise the
state is unchanged. -/
def addArticle (st : ScrapeState) (p : NormalizedArticle) : ScrapeState :=
  if p.article_id ∈ st.seen_ids then st
  else { all_articles := st.all_articles ++ [p],
         seen_ids := p.article_id :: st.seen_ids }

/-- The inner `for article in articles` loop (lines 187-194 and
205-212): process each raw article under the given category and fold
it into the state; an exception from `process_article` aborts. -/
def processRaws (category now : String) :
    List PyVal → ScrapeState → Except String ScrapeState
  | [], st => Except.ok st
  | raw :: rest, st =>
    match process_article raw category now with
    | Except.error e => Except.error e
    | Except.ok p => processRaws category now rest (addArticle st p)

/-- Line 196: `len([a for a in articles if create_article_id(a) not in
seen_ids])`, the count logged as unique articles for the keyword. -/
def countUnique : List PyVal → List String → Except String Nat
  | [], _ => Except.ok 0
  | raw :: rest, seen =>
    match create_article_id raw with
    | Except.error e => Except.error e
    | Except.ok i =>
      match countUnique rest seen with
      | Except.error e => Except.error e
      | Except.ok n => Except.ok (if i ∈ seen then n else n + 1)

/-- The guard `if news_data and news_data.get('articles'):` (lines 185
and 203): `some xs` when a non-empty list of raw articles is to be
iterated, `none` when the batch contributes nothing, `error` when the
payload shape makes the Python raise (`.get` on a non-dict response,
or iterating a truthy non-list `articles` value, whose string elements
make `process_article` raise at once). -/
def getArticles (news_data : Option PyVal) :
    Except String (Option (List PyVal)) :=
  match news_data with
  | Option.none => Except.ok Option.none
  | Option.some v =>
    if truthy v then
      match pyGetD v "articles" PyVal.none with
      | Except.error e => Except.error e
      | Except.ok arts =>
        if truthy arts then
          match arts with
          | PyVal.list xs => Except.ok (Option.some xs)
          | _ => Except.error "AttributeError: iterating non-list articles"
        else Except.ok Option.none
    else Except.ok Option.none

/-- Line 196's log line. -/
def foundLog (n : Nat) (keyword : String) : String :=
  "Found " ++ toString n ++ " unique articles for " ++ sqStr ++ keyword ++ sqStr

/-- One publisher-qualified batch (the body of lines 203-212 after the
fetch): nothing on a falsy or absent payload, otherwise fold the raw
articles into the state under the given category. -/
def sourceBatch (category now : String) (news_data : Option PyVal)
    (st : ScrapeState) : Except String ScrapeState :=
  match getArticles news_data with
  | Except.error e => Except.error e
  | Except.ok Option.none => Except.ok st
  | Except.ok (Option.some xs) => processRaws category now xs st

/-- One bare-keyword batch (the body of lines 185-196 after the
fetch): as `sourceBatch` under the bare keyword as category, and on a
processed batch also the line-196 unique-count log line, computed
against `seen_ids` after the batch has been folded in. -/
def bareBatch (keyword now : String) (news_data : Option PyVal)
    (st : ScrapeState) : Except String (ScrapeState × List String) :=
  match getArticles news_data with
  | Except.error e => Except.error e
  | Except.ok Option.none => Except.ok (st, [])
  | Except.ok (Option.some xs) =>
    match processRaws keyword now xs st with
    | Except.error e => Except.error e
    | Except.ok st2 =>
      match countUnique xs st2.seen_ids with
      | Except.error e => Except.error e
      | Except.ok n => Except.ok (st2, [foundLog n keyword])

/-- The `for source in self.sources` loop (lines 199-212) for one
keyword.  Returns the outcome, the trace of `fetch_news` calls
`(query, page_size)` actually performed, and the log lines. -/
def processSources (net : Params → Except String PyVal)
    (api_key from_date to_date now keyword : String) :
    List String → ScrapeState →
    Except String ScrapeState × List (String × Nat) × List String
  | [], st => (Except.ok st, [], [])
  | s :: rest, st =>
    match sourceBatch (keyword ++ " (source: " ++ s ++ ")") now
        (fetch_news net api_key (keyword ++ " source:" ++ s)
          from_date to_date 50).1 st with
    | Except.error e =>
      (Except.error e, [(keyword ++ " source:" ++ s, 50)],
       (fetch_news net api_key (keyword ++ " source:" ++ s)
         from_date to_date 50).2)
    | Except.ok st2 =>
      ((processSources net api_key from_date to_date now keyword rest st2).1,
       (keyword ++ " source:" ++ s, 50) ::
         (processSources net api_key from_date to_date now keyword rest st2).2.1,
       (fetch_news net api_key (keyword ++ " source:" ++ s)
           from_date to_date 50).2 ++
         (processSources net api_key from_date to_date now keyword rest st2).2.2)

/-- One iteration of the `for keyword in self.keywords` loop
(lines 179-212): the bare query (default page size 100) with its
unique-count log, then the publisher-qualified queries. -/
def processKeyword (net : Params → Except String PyVal)
    (api_key from_date to_date now : String) (sources : List String)
    (keyword : String) (st : ScrapeState) :
    Except String ScrapeState × List (String × Nat) × List String :=
  match bareBatch keyword now
      (fetch_news net api_key keyword from_date to_date 100).1 st with
  | Except.error e =>
    (Except.error e, [(keyword, 100)],
     ("Fetching news for: " ++ keyword) ::
       (fetch_news net api_key keyword from_date to_date 100).2)
  | Except.ok p =>
    ((processSources net api_key from_date to_date now keyword sources p.1).1,
     (keyword, 100) ::
       (processSources net api_key from_date to_date now keyword sources p.1).2.1,
     ("Fetching news for: " ++ keyword) ::
       (fetch_news net api_key keyword from_date to_date 100).2 ++ p.2 ++
       (processSources net api_key from_date to_date now keyword sources p.1).2.2)

/-- The keyword loop over the whole catalog. -/
def processKeywords (net : Params → Except String PyVal)
    (api_key from_date to_date now : String) (sources : List String) :
    List String → ScrapeState →
    Except String ScrapeState × List (String × Nat) × List String
  | [], st => (Except.ok st, [], [])
  | kw :: rest, st =>
    match (processKeyword net api_key from_date to_date now sources kw st).1 with
    | Except.error e =>
      (Except.error e,
       (processKeyword net api_key from_date to_date now sources kw st).2.1,
       (processKeyword net api_key from_date to_date now sources kw st).2.2)
    | Except.ok st2 =>
      ((processKeywords net api_key from_date to_date now sources rest st2).1,
       (processKeyword net api_key from_date to_date now sources kw st).2.1 ++
         (processKeywords net api_key from_date to_date now sources rest st2).2.1,
       (processKeyword net api_key from_date to_date now sources kw st).2.2 ++
         (processKeywords net api_key from_date to_date now sources rest st2).2.2)

/-- Embedding of `scrape_all_keywords` (lines 166-215).  The date
window computation (`utcnow`, `timedelta(days_back)`, `strftime`) is
external clock arithmetic and enters as the pre-formatted strings
`from_date`/`to_date`; `now` is the `isoformat()` timestamp used by
`process_article`.  Returns the accumulated articles (or the unhandled
exception), the trace of `fetch_news` invocations `(query, page_size)`
in order, and the log lines. -/
def scrape_all_keywords (net : Params → Except String PyVal)
    (keywords sources : List String)
    (api_key from_date to_date now : String) :
    Except String (List NormalizedArticle) × List (String × Nat) × List String :=
  match (processKeywords net api_key from_date to_date now sources keywords
      { all_articles := [], seen_ids := [] }).1 with
  | Except.error e =>
    (Except.error e,
     (processKeywords net api_key from_date to_date now sources keywords
       { all_articles := [], seen_ids := [] }).2.1,
     ("Scraping maritime news from " ++ from_date ++ " to " ++ to_date ++
         " (UTC)") ::
       (processKeywords net api_key from_date to_date now sources keywords
         { all_articles := [], seen_ids := [] }).2.2)
  | Except.ok st =>
    (Except.ok st.all_articles,
     (processKeywords net api_key from_date to_date now sources keywords
       { all_articles := [], seen_ids := [] }).2.1,
     ("Scraping maritime news from " ++ from_date ++ " to " ++ to_date ++
         " (UTC)") ::
       (processKeywords net api_key from_date to_date now sources keywords
         { all_articles := [], seen_ids := [] }).2.2 ++
       ["Total unique articles found: " ++
         toString st.all_articles.length])

/-- The full query matrix a completed run issues, in order: for each
keyword the bare query at page size 100 then one publisher-qualified
query per source at page size 50. -/
def expectedTrace (keywords sources : List String) : List (String × Nat) :=
  (keywords.map (fun kw =>
    (kw, 100) :: sources.map (fun s => (kw ++ " source:" ++ s, 50)))).flatten

/-! ### Query catalog (source lines 31-115) -/

/-- Embedding of `self.keywords`: the static keyword catalog (lines 31-107),
transcribed byte-for-byte (including the mojibake in the El Nino
entry). -/
def keywords : List String :=
  ["dry bulk shipping", "bulk carrier", "capesize",
   "panamax", "handymax", "handysize",
   "baltic dry index", "iron ore", "steel production",
   "coal demand", "grain exports", "soybean exports",
   "wheat exports", "fertilizer exports", "bauxite",
   "nickel ore", "copper concentrate", "shipping rates",
   "freight rates", "charter rates", "shipbroking",
   "maritime transport", "cargo shipping", "vessel charter",
   "shipping market", "Suez Canal", "Panama Canal",
   "Black Sea shipping", "Red Sea shipping", "Strait of Hormuz",
   "shipping sanctions", "export bans", "import tariffs",
   "trade restrictions", "newbuilding orders", "ship demolition",
   "vessel scrapping", "secondhand bulk carrier sales", "lay-up vessels",
   "ship congestion", "port congestion", "berthing delays",
   "canal delays", "bunker prices", "VLSFO",
   "IFO380", "LNG bunkering", "IMO regulations",
   "EU ETS shipping", "CII compliance", "EEXI",
   "shipping emissions", "carbon levy", "piracy",
   "houthi attacks", "gulf of aden", "malacca strait security",
   "port strikes", "dockworkers strike", "shipping disruption",
   "port closures", "extreme weather", "hurricanes",
   "cyclones", "typhoons", "El NiÃ±o shipping",
   "shipping IPO", "shipping finance", "ship mortgage",
   "private equity shipping", "charter party disputes", "freight derivatives",
   "FFAs", "Baltic Exchange", "Baltic Forward Assessments"]

/-- Embedding of `self.sources`: the static publisher catalog (lines 110-115). -/
def sources : List String :=
  ["reuters", "bloomberg", "financial-times", "the-wall-street-journal"]

/-! ### Persister: `save_data` and `print_summary`
(source lines 217-261).  The file system is an association list from
path to content; `open(..., "w")`/`to_csv` overwrite or create.  The
`json.dump` and `pandas.DataFrame.to_csv` serializers are external
library calls and enter as function parameters. -/

/-- Occurrence counts of a list of strings, keys in first-occurrence
order. -/
def countOcc (xs : List String) : List (String × Nat) :=
  xs.foldl
    (fun acc s =>
      if acc.any (fun p => p.1 == s) then
        acc.map (fun p => if p.1 == s then (p.1, p.2 + 1) else p)
      else acc ++ [(s, 1)])
    []

/-- Stable insertion into a count-descending list. -/
def insertDesc (x : String × Nat) :
    List (String × Nat) → List (String × Nat)
  | [] => [x]
  | y :: ys => if y.2 ≤ x.2 then x :: y :: ys else y :: insertDesc x ys

/-- Stable sort by count, descending (the order of
`pandas.Series.value_counts`). -/
def sortCountsDesc (l : List (String × Nat)) : List (String × Nat) :=
  l.foldr insertDesc []

/-- Embedding of `df[col].value_counts().head().to_dict()` for a string column:
top five values by count, formatted as a Python dict. -/
def valueCountsHeadDict (xs : List String) : String :=
  "\x7b" ++
    String.intercalate ", "
      (((sortCountsDesc (countOcc xs)).take 5).map
        (fun p => pyStrRepr p.1 ++ ": " ++ toString p.2)) ++
  "\x7d"

/-- Lexicographic fold for `df[col].min()` over the string renderings
of a column. -/
def colMin : List String → String
  | [] => ""
  | x :: xs => xs.foldl min x

/-- Lexicographic fold for `df[col].max()`. -/
def colMax : List String → String
  | [] => ""
  | x :: xs => xs.foldl max x

/-- Embedding of `print_summary` (lines 249-261): the emitted log
lines.  The pandas column statistics are modelled for the
string-rendered columns this program produces. -/
def print_summary (articles : List NormalizedArticle) : List String :=
  ["=== SCRAPING SUMMARY ===",
   "Total articles: " ++ toString articles.length] ++
  if articles.length > 0 then
    ["Date range: " ++ colMin (articles.map (fun a => pyFstr a.pubdate)) ++
       " to " ++ colMax (articles.map (fun a => pyFstr a.pubdate)),
     "Top sources: " ++
       valueCountsHeadDict (articles.map (fun a => pyFstr a.source)),
     "Top categories: " ++
       valueCountsHeadDict (articles.map (fun a => a.category)),
     "Scraped at: " ++ (articles.headD
       { article_id := "", title := PyVal.none, link := PyVal.none,
         creator := PyVal.none, pubdate := PyVal.none, category := "",
         description := PyVal.none, source := PyVal.none,
         scrape_timestamp := "" }).scrape_timestamp ++ " (UTC)"]
  else []

/-- A file system as a path-to-content association list. -/
abbrev FileSys : Type := List (String × String)

/-- Writing a whole file: overwrite in place, or create at the end. -/
def fsWrite (fs : FileSys) (path content : String) : FileSys :=
  if fs.any (fun e => e.1 == path) then
    fs.map (fun e => if e.1 == path then (path, content) else e)
  else fs ++ [(path, content)]

/-- Embedding of `save_data` (lines 217-247).  `jsonDump` and `csvDump`
stand for `json.dump(articles, indent=2, ensure_ascii=False)` and
`pandas.DataFrame(articles).to_csv(index=False)`; `timestamp` is
`utcnow().strftime("%Y%m%d_%H%M%S")`.  Returns the updated file
system and the log lines; on an empty input the file system is
returned untouched with only the warning. -/
def save_data (jsonDump csvDump : List NormalizedArticle → String)
    (timestamp : String) (articles : List NormalizedArticle)
    (fs : FileSys) : FileSys × List String :=
  if articles.isEmpty then (fs, ["No articles to save"])
  else
    let json_file := "data/maritime_news_" ++ timestamp ++ ".json"
    let csv_file := "data/maritime_news_" ++ timestamp ++ ".csv"
    let fs1 := fsWrite fs json_file (jsonDump articles)
    let fs2 := fsWrite fs1 csv_file (csvDump articles)
    let fs3 := fsWrite fs2 "data/maritime_news_latest.json" (jsonDump articles)
    let fs4 := fsWrite fs3 "data/maritime_news_latest.csv" (csvDump articles)
    (fs4,
     ("Saved " ++ toString articles.length ++ " articles to " ++
        json_file ++ " and " ++ csv_file) :: print_summary articles)

/-! ### Auxiliary definitions for the statements -/

/-- The run-state invariant of the Deduplicator: accumulated articles
carry pairwise-distinct identifiers, and every accumulated identifier
has been marked seen. -/
def ScrapeInv (st : ScrapeState) : Prop :=
  (st.all_articles.map (fun a => a.article_id)).Nodup ∧
    ∀ a ∈ st.all_articles, a.article_id ∈ st.seen_ids

/-- The empty starting state of a run (lines 174-175). -/
def emptyState : ScrapeState := { all_articles := [], seen_ids := [] }

/-- A network oracle on which every request fails. -/
def netFail : Params → Except String PyVal :=
  fun _ => Except.error "connection error"

/-- A concrete raw article for witnesses. -/
def sampleArticle : PyVal :=
  PyVal.dict [("title", PyVal.str "T"), ("url", PyVal.str "U")]

/-- A network oracle that serves one article on publisher-qualified
queries (page size 50) and fails otherwise. -/
def netOne : Params → Except String PyVal := fun p =>
  if p.pageSize == 50 then
    Except.ok (PyVal.dict [("articles", PyVal.list [sampleArticle])])
  else Except.error "connection error"


/-- The record `process_article` produces for the empty raw article
under keyword `capesize` at a fixed timestamp (used by witnesses). -/
def emptyRawProcessed : NormalizedArticle :=
  { article_id := md5Hex (utf8Bytes ("" ++ "")), title := PyVal.str "",
    link := PyVal.str "", creator := PyVal.str "",
    pubdate := PyVal.str "", category := "capesize",
    description := PyVal.str "", source := PyVal.str "",
    scrape_timestamp := "2026-10-12T00:00:00Z" }


/-- The state after folding the empty raw article into the empty run
state (used by witnesses). -/
def oneArticleState : ScrapeState :=
  { all_articles := [emptyRawProcessed],
    seen_ids := [emptyRawProcessed.article_id] }


/-- The record `process_article` produces for `sampleArticle` under
the publisher-qualified category (used by witnesses). -/
def sampleProcessed : NormalizedArticle :=
  { article_id := md5Hex (utf8Bytes ("T" ++ "U")), title := PyVal.str "T",
    link := PyVal.str "U", creator := PyVal.str "",
    pubdate := PyVal.str "",
    category := "capesize" ++ " (source: " ++ "reuters" ++ ")",
    description := PyVal.str "", source := PyVal.str "",
    scrape_timestamp := "2026-10-12T00:00:00Z" }

/-- The state after the publisher-qualified batch of `netOne` (used by
witnesses). -/
def sampleSourceState : ScrapeState :=
  { all_articles := [sampleProcessed],
    seen_ids := [sampleProcessed.article_id] }

/-- A network oracle that always succeeds with a `null` body. -/
def netNull : Params → Except String PyVal :=
  fun _ => Except.ok PyVal.none

/-! ## Theorems -/

/-- RFC 1321 test vector, validating the MD5 embedding. -/
theorem md5Hex_vector_abc :
    md5Hex (utf8Bytes "abc") = "900150983cd24fb0d6963f7d28e17f72" := by
  decide

/-- RFC 1321 test vector for the empty message. -/
theorem md5Hex_vector_empty :
    md5Hex (utf8Bytes "") = "d41d8cd98f00b204e9800998ecf8427e" := by
  decide

/-! ### Basic unfoldings -/

theorem pyFstr_str (s : String) : pyFstr (PyVal.str s) = s := rfl

theorem create_article_id_dict (es : List (String × PyVal)) :
    create_article_id (PyVal.dict es) =
      Except.ok (md5Hex (utf8Bytes
        (pyFstr (dictGet es "title" (PyVal.str "")) ++
          pyFstr (dictGet es "url" (PyVal.str ""))))) := rfl

/-! ### C1 -/

/-- C1: two raw articles with byte-for-byte equal `title` and `url`
fields receive the same identifier from `create_article_id`, whatever
their other fields hold; and on string-valued `title`/`url` the
identifier is exactly the hexadecimal MD5 digest of the UTF-8 bytes of
the concatenation `title ++ url`. -/
theorem create_article_id_deterministic :
    (∀ es fs,
      dictGet es "title" (PyVal.str "") = dictGet fs "title" (PyVal.str "") →
      dictGet es "url" (PyVal.str "") = dictGet fs "url" (PyVal.str "") →
      create_article_id (PyVal.dict es) = create_article_id (PyVal.dict fs)) ∧
    (∀ es t u,
      dictGet es "title" (PyVal.str "") = PyVal.str t →
      dictGet es "url" (PyVal.str "") = PyVal.str u →
      create_article_id (PyVal.dict es) =
        Except.ok (md5Hex (utf8Bytes (t ++ u)))) := by
  constructor
  · intro es fs ht hu
    rw [create_article_id_dict, create_article_id_dict, ht, hu]
  · intro es t u ht hu
    rw [create_article_id_dict, ht, hu, pyFstr_str, pyFstr_str]

/-- Witness for C1 at concrete articles that differ in their `author`
field and in key order but agree on `title` and `url`. -/
theorem create_article_id_deterministic_witness :
    create_article_id (PyVal.dict
        [("title", PyVal.str "A"), ("url", PyVal.str "B"),
         ("author", PyVal.str "X")]) =
      create_article_id (PyVal.dict
        [("author", PyVal.str "Y"), ("title", PyVal.str "A"),
         ("url", PyVal.str "B")]) ∧
    create_article_id (PyVal.dict
        [("title", PyVal.str "A"), ("url", PyVal.str "B"),
         ("author", PyVal.str "X")]) =
      Except.ok (md5Hex (utf8Bytes ("A" ++ "B"))) :=
  ⟨create_article_id_deterministic.1 _ _ rfl rfl,
   create_article_id_deterministic.2 _ "A" "B" rfl rfl⟩

/-! ### C2

The claim fails on the code: the identifier hashes the bare
concatenation `title ++ url`, so two articles that differ in both
fields but share the concatenation (for example `"ab"/"c"` and
`"a"/"bc"`) receive the same identifier. -/

/-- C2 counterexample: the articles `{title: "ab", url: "c"}` and
`{title: "a", url: "bc"}` differ in `title` and in `url`, yet
`create_article_id` assigns them the same identifier. -/
theorem create_article_id_collision :
    dictGet [("title", PyVal.str "ab"), ("url", PyVal.str "c")] "title"
        (PyVal.str "") ≠
      dictGet [("title", PyVal.str "a"), ("url", PyVal.str "bc")] "title"
        (PyVal.str "") ∧
    dictGet [("title", PyVal.str "ab"), ("url", PyVal.str "c")] "url"
        (PyVal.str "") ≠
      dictGet [("title", PyVal.str "a"), ("url", PyVal.str "bc")] "url"
        (PyVal.str "") ∧
    create_article_id
        (PyVal.dict [("title", PyVal.str "ab"), ("url", PyVal.str "c")]) =
      create_article_id
        (PyVal.dict [("title", PyVal.str "a"), ("url", PyVal.str "bc")]) := by
  refine ⟨fun h => ?_, fun h => ?_, rfl⟩
  · simp [dictGet, dictFind] at h
  · simp [dictGet, dictFind] at h

/-- C2 amended: for raw articles with string `title` and `url` fields,
the identifiers are distinct exactly when the MD5 digests of the UTF-8
bytes of the concatenations `title ++ url` are distinct; differing
`title` or `url` alone does not guarantee distinct identifiers. -/
theorem create_article_id_distinct_iff :
    ∀ es fs t u t2 u2,
      dictGet es "title" (PyVal.str "") = PyVal.str t →
      dictGet es "url" (PyVal.str "") = PyVal.str u →
      dictGet fs "title" (PyVal.str "") = PyVal.str t2 →
      dictGet fs "url" (PyVal.str "") = PyVal.str u2 →
      (create_article_id (PyVal.dict es) ≠ create_article_id (PyVal.dict fs) ↔
        md5Hex (utf8Bytes (t ++ u)) ≠ md5Hex (utf8Bytes (t2 ++ u2))) := by
  intro es fs t u t2 u2 ht hu ht2 hu2
  rw [create_article_id_dict, create_article_id_dict, ht, hu, ht2, hu2,
    pyFstr_str, pyFstr_str, pyFstr_str, pyFstr_str]
  simp

/-- Witness for the amended C2, at the two colliding articles of the
counterexample: their digests agree, hence so do their identifiers. -/
theorem create_article_id_distinct_iff_witness :
    create_article_id
        (PyVal.dict [("title", PyVal.str "ab"), ("url", PyVal.str "c")]) ≠
      create_article_id
        (PyVal.dict [("title", PyVal.str "a"), ("url", PyVal.str "bc")]) ↔
    md5Hex (utf8Bytes ("ab" ++ "c")) ≠ md5Hex (utf8Bytes ("a" ++ "bc")) :=
  create_article_id_distinct_iff _ _ "ab" "c" "a" "bc" rfl rfl rfl rfl

/-! ### C6 -/

/-- C6: called on an empty article sequence, `save_data` only logs the
warning and leaves the file system exactly as it was, whatever the
serializers and timestamp are: no output file is created. -/
theorem save_data_empty_noop :
    ∀ (jsonDump csvDump : List NormalizedArticle → String)
      (timestamp : String) (fs : FileSys),
      save_data jsonDump csvDump timestamp [] fs =
        (fs, ["No articles to save"]) := by
  intro jsonDump csvDump timestamp fs
  rfl

/-! ### C10 -/

/-- C10: when the raw article carries the key `source` with value
`None` (rather than the key being absent), `process_article` raises
`AttributeError` from `.get('name', '')` instead of producing a
record: the empty-string defaults apply to absent keys only. -/
theorem process_article_null_source_raises :
    ∀ es kw now, dictFind es "source" = Option.some PyVal.none →
      process_article (PyVal.dict es) kw now =
        Except.error "AttributeError: object has no attribute get" := by
  intro es kw now h
  simp only [process_article, create_article_id, pyGetD, dictGet, h]
  rfl

/-- Witness for C10: the raw article `{source: None, title: "A"}`. -/
theorem process_article_null_source_raises_witness :
    dictFind [("source", PyVal.none), ("title", PyVal.str "A")] "source" =
        Option.some PyVal.none ∧
      process_article
          (PyVal.dict [("source", PyVal.none), ("title", PyVal.str "A")])
          "capesize" "2026-10-12T00:00:00" =
        Except.error "AttributeError: object has no attribute get" :=
  ⟨rfl, process_article_null_source_raises _ _ _ rfl⟩

/-! ### C5

The claim fails as stated: its quantification covers raw articles in
which some field is absent but the `source` key is present with a
null value, and there `process_article` raises (see C10) instead of
returning a record. -/

/-- C5 counterexample: in the raw article `{source: None}` the field
`title` is absent, yet `process_article` does not return a normalized
record - it raises `AttributeError`. -/
theorem process_article_absent_field_raises :
    dictFind [("source", PyVal.none)] "title" = Option.none ∧
    (process_article (PyVal.dict [("source", PyVal.none)]) "capesize"
        "2026-10-12T00:00:00").isOk = false :=
  ⟨rfl, rfl⟩

theorem process_article_dict_ok (es fs : List (String × PyVal))
    (kw now : String)
    (hfs : dictGet es "source" (PyVal.dict []) = PyVal.dict fs) :
    process_article (PyVal.dict es) kw now = Except.ok
      { article_id := md5Hex (utf8Bytes
          (pyFstr (dictGet es "title" (PyVal.str "")) ++
            pyFstr (dictGet es "url" (PyVal.str "")))),
        title := dictGet es "title" (PyVal.str ""),
        link := dictGet es "url" (PyVal.str ""),
        creator := dictGet es "author" (PyVal.str ""),
        pubdate := dictGet es "publishedAt" (PyVal.str ""),
        category := kw,
        description := dictGet es "description" (PyVal.str ""),
        source := dictGet fs "name" (PyVal.str ""),
        scrape_timestamp := now ++ "Z" } := by
  have hfs2 : (dictFind es "source").getD (PyVal.dict []) = PyVal.dict fs := hfs
  simp only [process_article, create_article_id, pyGetD, dictGet, hfs2]
  rfl

/-- C5 amended: for every raw article in which the `source` key is
absent or holds a dict, `process_article` returns a record without
raising, and every field among `title`, `url`, `author`,
`publishedAt`, `description`, `source` that is absent from the raw
article appears in the record as the empty string (the record shape is
total, so no field is omitted). -/
theorem process_article_missing_defaults :
    (∀ es kw now,
      (dictFind es "source" = Option.none ∨
        ∃ fs, dictFind es "source" = Option.some (PyVal.dict fs)) →
      (process_article (PyVal.dict es) kw now).isOk = true) ∧
    (∀ es kw now r,
      process_article (PyVal.dict es) kw now = Except.ok r →
      (dictFind es "title" = Option.none → r.title = PyVal.str "") ∧
      (dictFind es "url" = Option.none → r.link = PyVal.str "") ∧
      (dictFind es "author" = Option.none → r.creator = PyVal.str "") ∧
      (dictFind es "publishedAt" = Option.none → r.pubdate = PyVal.str "") ∧
      (dictFind es "description" = Option.none → r.description = PyVal.str "") ∧
      (dictFind es "source" = Option.none → r.source = PyVal.str "")) := by
  have key : ∀ es : List (String × PyVal),
      (dictFind es "source" = Option.none ∨
        ∃ fs, dictFind es "source" = Option.some (PyVal.dict fs)) →
      ∃ fs, dictGet es "source" (PyVal.dict []) = PyVal.dict fs := by
    intro es h
    rcases h with h | ⟨fs, h⟩
    · exact ⟨[], by simp [dictGet, h]⟩
    · exact ⟨fs, by simp [dictGet, h]⟩
  constructor
  · intro es kw now h
    rcases key es h with ⟨fs, hfs⟩
    rw [process_article_dict_ok es fs kw now hfs]
    rfl
  · intro es kw now r hr
    have hsrc : (dictFind es "source" = Option.none ∨
        ∃ fs, dictFind es "source" = Option.some (PyVal.dict fs)) := by
      by_contra hne
      push_neg at hne
      obtain ⟨h1, h2⟩ := hne
      rcases hv : dictFind es "source" with _ | v
      · exact h1 hv
      · have hgot : dictGet es "source" (PyVal.dict []) = v := by
          simp [dictGet, hv]
        cases v with
        | dict fs => exact h2 fs (by rw [hv])
        | none =>
          rw [show process_article (PyVal.dict es) kw now =
            Except.error "AttributeError: object has no attribute get" from ?_]
              at hr
          · exact Except.noConfusion hr
          · simp only [process_article, create_article_id, pyGetD, dictGet, hv]
            rfl
        | str s =>
          rw [show process_article (PyVal.dict es) kw now =
            Except.error "AttributeError: object has no attribute get" from ?_]
              at hr
          · exact Except.noConfusion hr
          · simp only [process_article, create_article_id, pyGetD, dictGet, hv]
            rfl
        | list xs =>
          rw [show process_article (PyVal.dict es) kw now =
            Except.error "AttributeError: object has no attribute get" from ?_]
              at hr
          · exact Except.noConfusion hr
          · simp only [process_article, create_article_id, pyGetD, dictGet, hv]
            rfl
    rcases key es hsrc with ⟨fs, hfs⟩
    rw [process_article_dict_ok es fs kw now hfs] at hr
    have hr2 := Except.ok.inj hr
    subst hr2
    refine ⟨?_, ?_, ?_, ?_, ?_, ?_⟩ <;> intro habs <;> simp [dictGet, habs]
    rcases hsrc with h | ⟨fs2, h⟩
    · simp [dictGet, h] at hfs
      subst hfs
      rfl
    · rw [h] at habs
      exact Option.noConfusion habs

/-- Witness for the amended C5 at the empty raw article: every field
is absent, the call succeeds, and each copied field defaults to the
empty string. -/
theorem process_article_missing_defaults_witness :
    (process_article (PyVal.dict []) "capesize"
        "2026-10-12T00:00:00").isOk = true ∧
    emptyRawProcessed.title = PyVal.str "" ∧
    emptyRawProcessed.link = PyVal.str "" ∧
    emptyRawProcessed.creator = PyVal.str "" ∧
    emptyRawProcessed.pubdate = PyVal.str "" ∧
    emptyRawProcessed.description = PyVal.str "" ∧
    emptyRawProcessed.source = PyVal.str "" := by
  have hr : process_article (PyVal.dict []) "capesize"
      "2026-10-12T00:00:00" = Except.ok emptyRawProcessed := rfl
  obtain ⟨h1, h2, h3, h4, h5, h6⟩ :=
    process_article_missing_defaults.2 [] "capesize" "2026-10-12T00:00:00"
      emptyRawProcessed hr
  exact ⟨process_article_missing_defaults.1 [] "capesize"
      "2026-10-12T00:00:00" (Or.inl rfl),
    h1 rfl, h2 rfl, h3 rfl, h4 rfl, h5 rfl, h6 rfl⟩

/-! ### Deduplicator lemmas -/

theorem addArticle_seen_mono (st : ScrapeState) (p : NormalizedArticle) :
    ∀ i ∈ st.seen_ids, i ∈ (addArticle st p).seen_ids := by
  intro i hi
  unfold addArticle
  split
  · exact hi
  · exact List.mem_cons_of_mem _ hi

theorem addArticle_seen_self (st : ScrapeState) (p : NormalizedArticle) :
    p.article_id ∈ (addArticle st p).seen_ids := by
  unfold addArticle
  split
  · assumption
  · exact List.mem_cons_self _ _

theorem addArticle_articles_sub (st : ScrapeState) (p : NormalizedArticle) :
    ∀ a ∈ (addArticle st p).all_articles, a ∈ st.all_articles ∨ a = p := by
  intro a ha
  unfold addArticle at ha
  split at ha
  · exact Or.inl ha
  · simp only [List.mem_append, List.mem_singleton] at ha
    exact ha

theorem addArticle_inv (st : ScrapeState) (p : NormalizedArticle)
    (h : ScrapeInv st) : ScrapeInv (addArticle st p) := by
  obtain ⟨h1, h2⟩ := h
  unfold ScrapeInv addArticle
  split
  · exact ⟨h1, h2⟩
  · rename_i hmem
    constructor
    · simp only [List.map_append, List.map_cons, List.map_nil]
      rw [List.nodup_append]
      refine ⟨h1, List.nodup_singleton _, ?_⟩
      intro x hx
      simp only [List.mem_map] at hx
      obtain ⟨a, ha, rfl⟩ := hx
      simp only [List.mem_singleton]
      intro hxp
      exact hmem (hxp ▸ h2 a ha)
    · intro a ha
      simp only [List.mem_append, List.mem_singleton] at ha
      rcases ha with ha | rfl
      · exact List.mem_cons_of_mem _ (h2 a ha)
      · exact List.mem_cons_self _ _

theorem process_article_src_bad (es : List (String × PyVal))
    (kw now : String) (v : PyVal)
    (hv : dictGet es "source" (PyVal.dict []) = v)
    (hnd : ∀ fs, v ≠ PyVal.dict fs) :
    process_article (PyVal.dict es) kw now =
      Except.error "AttributeError: object has no attribute get" := by
  have hv2 : (dictFind es "source").getD (PyVal.dict []) = v := hv
  simp only [process_article, create_article_id, pyGetD, dictGet, hv2]
  cases v with
  | dict fs => exact absurd rfl (hnd fs)
  | none => rfl
  | str s => rfl
  | list xs => rfl

theorem process_article_ok_shape (raw : PyVal) (kw now : String)
    (p : NormalizedArticle)
    (h : process_article raw kw now = Except.ok p) :
    p.category = kw ∧ create_article_id raw = Except.ok p.article_id := by
  cases raw with
  | none => exact Except.noConfusion h
  | str s => exact Except.noConfusion h
  | list xs => exact Except.noConfusion h
  | dict es =>
    cases hv : dictGet es "source" (PyVal.dict []) with
    | dict fs =>
      rw [process_article_dict_ok es fs kw now hv] at h
      have := Except.ok.inj h
      subst this
      exact ⟨rfl, rfl⟩
    | none =>
      rw [process_article_src_bad es kw now _ hv (by intro _ h; cases h)] at h
      exact Except.noConfusion h
    | str s =>
      rw [process_article_src_bad es kw now _ hv (by intro _ h; cases h)] at h
      exact Except.noConfusion h
    | list xs =>
      rw [process_article_src_bad es kw now _ hv (by intro _ h; cases h)] at h
      exact Except.noConfusion h

theorem processRaws_inv (c now : String) :
    ∀ xs st st2, processRaws c now xs st = Except.ok st2 →
      ScrapeInv st → ScrapeInv st2 := by
  intro xs
  induction xs with
  | nil => intro st st2 h hi; cases h; exact hi
  | cons raw rest ih =>
    intro st st2 h hi
    simp only [processRaws] at h
    cases hp : process_article raw c now with
    | error e => rw [hp] at h; exact Except.noConfusion h
    | ok p => rw [hp] at h; exact ih _ _ h (addArticle_inv _ _ hi)

theorem processRaws_seen_mono (c now : String) :
    ∀ xs st st2, processRaws c now xs st = Except.ok st2 →
      ∀ i ∈ st.seen_ids, i ∈ st2.seen_ids := by
  intro xs
  induction xs with
  | nil => intro st st2 h i hi; cases h; exact hi
  | cons raw rest ih =>
    intro st st2 h i hi
    simp only [processRaws] at h
    cases hp : process_article raw c now with
    | error e => rw [hp] at h; exact Except.noConfusion h
    | ok p =>
      rw [hp] at h
      exact ih _ _ h i (addArticle_seen_mono _ _ i hi)

theorem processRaws_ids_seen (c now : String) :
    ∀ xs st st2, processRaws c now xs st = Except.ok st2 →
      ∀ raw ∈ xs, ∃ i, create_article_id raw = Except.ok i ∧
        i ∈ st2.seen_ids := by
  intro xs
  induction xs with
  | nil => intro st st2 h raw hraw; cases hraw
  | cons raw0 rest ih =>
    intro st st2 h raw hraw
    simp only [processRaws] at h
    cases hp : process_article raw0 c now with
    | error e => rw [hp] at h; exact Except.noConfusion h
    | ok p =>
      rw [hp] at h
      rcases List.mem_cons.mp hraw with rfl | hmem
      · refine ⟨p.article_id, (process_article_ok_shape _ _ _ _ hp).2, ?_⟩
        exact processRaws_seen_mono c now rest _ _ h _
          (addArticle_seen_self st p)
      · exact ih _ _ h raw hmem

theorem processRaws_new_cat (c now : String) :
    ∀ xs st st2, processRaws c now xs st = Except.ok st2 →
      ∀ a ∈ st2.all_articles, a ∈ st.all_articles ∨ a.category = c := by
  intro xs
  induction xs with
  | nil => intro st st2 h a ha; cases h; exact Or.inl ha
  | cons raw rest ih =>
    intro st st2 h a ha
    simp only [processRaws] at h
    cases hp : process_article raw c now with
    | error e => rw [hp] at h; exact Except.noConfusion h
    | ok p =>
      rw [hp] at h
      rcases ih _ _ h a ha with hin | hcat
      · rcases addArticle_articles_sub st p a hin with hin2 | rfl
        · exact Or.inl hin2
        · exact Or.inr (process_article_ok_shape _ _ _ _ hp).1
      · exact Or.inr hcat

theorem countUnique_zero :
    ∀ (xs : List PyVal) (seen : List String),
      (∀ raw ∈ xs, ∃ i, create_article_id raw = Except.ok i ∧ i ∈ seen) →
      countUnique xs seen = Except.ok 0 := by
  intro xs
  induction xs with
  | nil => intro seen h; rfl
  | cons raw rest ih =>
    intro seen h
    obtain ⟨i, hc, hm⟩ := h raw (List.mem_cons_self _ _)
    simp only [countUnique]
    rw [hc, ih seen (fun r hr => h r (List.mem_cons_of_mem _ hr))]
    simp [hm]

/-! ### Batch- and loop-level invariant lemmas -/

theorem sourceBatch_inv (c now : String) (nd : Option PyVal)
    (st st2 : ScrapeState) (h : sourceBatch c now nd st = Except.ok st2)
    (hi : ScrapeInv st) : ScrapeInv st2 := by
  unfold sourceBatch at h
  cases hg : getArticles nd with
  | error e => rw [hg] at h; exact Except.noConfusion h
  | ok o =>
    rw [hg] at h
    cases o with
    | none => cases h; exact hi
    | some xs => exact processRaws_inv c now xs st st2 h hi

theorem bareBatch_inv (kw now : String) (nd : Option PyVal)
    (st : ScrapeState) (p : ScrapeState × List String)
    (h : bareBatch kw now nd st = Except.ok p)
    (hi : ScrapeInv st) : ScrapeInv p.1 := by
  unfold bareBatch at h
  cases hg : getArticles nd with
  | error e => rw [hg] at h; exact Except.noConfusion h
  | ok o =>
    rw [hg] at h
    cases o with
    | none => cases h; exact hi
    | some xs =>
      dsimp only at h
      cases hp : processRaws kw now xs st with
      | error e => rw [hp] at h; exact Except.noConfusion h
      | ok st2 =>
        rw [hp] at h
        dsimp only at h
        cases hc : countUnique xs st2.seen_ids with
        | error e => rw [hc] at h; exact Except.noConfusion h
        | ok n =>
          rw [hc] at h
          cases h
          exact processRaws_inv kw now xs st st2 hp hi

theorem processSources_inv (net : Params → Except String PyVal)
    (key fd td now kw : String) :
    ∀ l st st2,
      (processSources net key fd td now kw l st).1 = Except.ok st2 →
      ScrapeInv st → ScrapeInv st2 := by
  intro l
  induction l with
  | nil => intro st st2 h hi; cases h; exact hi
  | cons s rest ih =>
    intro st st2 h hi
    simp only [processSources] at h
    cases hb : sourceBatch (kw ++ " (source: " ++ s ++ ")") now
        (fetch_news net key (kw ++ " source:" ++ s) fd td 50).1 st with
    | error e => rw [hb] at h; exact Except.noConfusion h
    | ok st1 =>
      rw [hb] at h
      exact ih _ _ h (sourceBatch_inv _ _ _ _ _ hb hi)

theorem processKeyword_inv (net : Params → Except String PyVal)
    (key fd td now : String) (srcs : List String) (kw : String)
    (st st2 : ScrapeState)
    (h : (processKeyword net key fd td now srcs kw st).1 = Except.ok st2)
    (hi : ScrapeInv st) : ScrapeInv st2 := by
  unfold processKeyword at h
  cases hb : bareBatch kw now
      (fetch_news net key kw fd td 100).1 st with
  | error e => rw [hb] at h; exact Except.noConfusion h
  | ok p =>
    rw [hb] at h
    exact processSources_inv net key fd td now kw srcs _ _ h
      (bareBatch_inv _ _ _ _ _ hb hi)

theorem processKeywords_inv (net : Params → Except String PyVal)
    (key fd td now : String) (srcs : List String) :
    ∀ l st st2,
      (processKeywords net key fd td now srcs l st).1 = Except.ok st2 →
      ScrapeInv st → ScrapeInv st2 := by
  intro l
  induction l with
  | nil => intro st st2 h hi; cases h; exact hi
  | cons kw rest ih =>
    intro st st2 h hi
    simp only [processKeywords] at h
    cases hk : (processKeyword net key fd td now srcs kw st).1 with
    | error e => rw [hk] at h; exact Except.noConfusion h
    | ok st1 =>
      rw [hk] at h
      exact ih _ _ h (processKeyword_inv net key fd td now srcs kw st st1 hk hi)

/-! ### C3 -/

/-- C3: the Deduplicator never stores two entries with one identifier:
an already-seen identifier leaves the state unchanged, a new one is
appended and marked seen, the no-duplicate invariant is preserved by
every step, feeding the same article twice equals feeding it once, and
every completed run of `scrape_all_keywords` returns articles with
pairwise distinct identifiers. -/
theorem dedup_no_duplicate_ids :
    (∀ st p, p.article_id ∈ st.seen_ids → addArticle st p = st) ∧
    (∀ st p, p.article_id ∉ st.seen_ids →
      (addArticle st p).all_articles = st.all_articles ++ [p] ∧
      (addArticle st p).seen_ids = p.article_id :: st.seen_ids) ∧
    (∀ st p, ScrapeInv st → ScrapeInv (addArticle st p)) ∧
    (∀ st p, addArticle (addArticle st p) p = addArticle st p) ∧
    (∀ net kws srcs key fd td now arts,
      (scrape_all_keywords net kws srcs key fd td now).1 = Except.ok arts →
      (arts.map (fun a => a.article_id)).Nodup) := by
  refine ⟨?_, ?_, addArticle_inv, ?_, ?_⟩
  · intro st p h
    unfold addArticle
    rw [if_pos h]
  · intro st p h
    unfold addArticle
    rw [if_neg h]
    exact ⟨rfl, rfl⟩
  · intro st p
    unfold addArticle
    by_cases h : p.article_id ∈ st.seen_ids
    · simp [h]
    · simp [h]
  · intro net kws srcs key fd td now arts h
    unfold scrape_all_keywords at h
    cases hk : (processKeywords net key fd td now srcs kws
        { all_articles := [], seen_ids := [] }).1 with
    | error e => rw [hk] at h; exact Except.noConfusion h
    | ok st =>
      rw [hk] at h
      have harts := Except.ok.inj h
      subst harts
      have hinv : ScrapeInv { all_articles := [], seen_ids := [] } :=
        ⟨List.nodup_nil, by intro a ha; cases ha⟩
      exact (processKeywords_inv net key fd td now srcs kws _ _ hk hinv).1

/-- Witness for C3: the discard, append, invariant-preservation and
idempotence parts at the singleton state, and the run part on a
one-keyword catalog over an all-failing network. -/
theorem dedup_no_duplicate_ids_witness :
    addArticle oneArticleState emptyRawProcessed = oneArticleState ∧
    (addArticle emptyState emptyRawProcessed).all_articles =
      emptyState.all_articles ++ [emptyRawProcessed] ∧
    ScrapeInv (addArticle emptyState emptyRawProcessed) ∧
    addArticle (addArticle emptyState emptyRawProcessed) emptyRawProcessed =
      addArticle emptyState emptyRawProcessed ∧
    (([] : List NormalizedArticle).map (fun a => a.article_id)).Nodup := by
  refine ⟨dedup_no_duplicate_ids.1 _ _ (List.mem_cons_self _ _),
    (dedup_no_duplicate_ids.2.1 _ _ (by simp [emptyState])).1,
    dedup_no_duplicate_ids.2.2.1 _ _ ⟨List.nodup_nil, by intro a ha; cases ha⟩,
    dedup_no_duplicate_ids.2.2.2.1 _ _,
    dedup_no_duplicate_ids.2.2.2.2 netFail ["capesize"] ["reuters"]
      "k" "2025-10-05" "2025-10-12" "2026-10-12T00:00:00" [] rfl⟩

/-! ### C9 -/

/-- C9: the per-keyword log line reports the number of raw articles of
the batch whose identifier is not in `seen_ids`, but it is computed
after the batch itself has marked every one of those identifiers seen,
so the reported count is always zero: a processed bare batch logs
either nothing or `Found 0 unique articles`. -/
theorem logged_unique_count_zero :
    (∀ kw now xs st st2, processRaws kw now xs st = Except.ok st2 →
      countUnique xs st2.seen_ids = Except.ok 0) ∧
    (∀ kw now nd st p, bareBatch kw now nd st = Except.ok p →
      p.2 = [] ∨ p.2 = [foundLog 0 kw]) := by
  have part1 : ∀ kw now xs st st2,
      processRaws kw now xs st = Except.ok st2 →
      countUnique xs st2.seen_ids = Except.ok 0 := by
    intro kw now xs st st2 h
    exact countUnique_zero xs st2.seen_ids
      (processRaws_ids_seen kw now xs st st2 h)
  refine ⟨part1, ?_⟩
  intro kw now nd st p h
  unfold bareBatch at h
  cases hg : getArticles nd with
  | error e => rw [hg] at h; exact Except.noConfusion h
  | ok o =>
    rw [hg] at h
    cases o with
    | none => cases h; exact Or.inl rfl
    | some xs =>
      dsimp only at h
      cases hp : processRaws kw now xs st with
      | error e => rw [hp] at h; exact Except.noConfusion h
      | ok st2 =>
        rw [hp] at h
        dsimp only at h
        cases hc : countUnique xs st2.seen_ids with
        | error e => rw [hc] at h; exact Except.noConfusion h
        | ok n =>
          rw [hc] at h
          cases h
          have h0 := part1 kw now xs st st2 hp
          rw [hc] at h0
          have hn := Except.ok.inj h0
          subst hn
          exact Or.inr rfl

/-- Witness for C9: processing the one-article batch `[{}]` from the
empty state marks the article's identifier seen, after which the
logged count over the same batch is zero. -/
theorem logged_unique_count_zero_witness :
    countUnique [PyVal.dict []] oneArticleState.seen_ids = Except.ok 0 ∧
    (oneArticleState,
      [foundLog 0 "capesize"]).2 = [] ∨
    (oneArticleState, [foundLog 0 "capesize"]).2 = [foundLog 0 "capesize"] := by
  refine Or.inr ?_
  have := logged_unique_count_zero.2 "capesize" "2026-10-12T00:00:00"
    (Option.some (PyVal.dict [("articles", PyVal.list [PyVal.dict []])]))
    emptyState (oneArticleState, [foundLog 0 "capesize"]) rfl
  rcases this with h | h
  · exact absurd h (by simp)
  · exact h

/-! ### Category lemmas -/

theorem cat_ne_keyword (kw s : String) :
    kw ++ " (source: " ++ s ++ ")" ≠ kw := by
  intro h
  have hl := congrArg String.length h
  rw [String.length_append, String.length_append, String.length_append] at hl
  have h1 : (" (source: " : String).length = 10 := rfl
  have h2 : (")" : String).length = 1 := rfl
  rw [h1, h2] at hl
  omega

theorem sourceBatch_new_cat (c now : String) (nd : Option PyVal)
    (st st2 : ScrapeState) (h : sourceBatch c now nd st = Except.ok st2) :
    ∀ a ∈ st2.all_articles, a ∈ st.all_articles ∨ a.category = c := by
  unfold sourceBatch at h
  cases hg : getArticles nd with
  | error e => rw [hg] at h; exact Except.noConfusion h
  | ok o =>
    rw [hg] at h
    cases o with
    | none => cases h; intro a ha; exact Or.inl ha
    | some xs => exact processRaws_new_cat c now xs st st2 h

theorem processSources_new_cat (net : Params → Except String PyVal)
    (key fd td now kw : String) :
    ∀ l st st2,
      (processSources net key fd td now kw l st).1 = Except.ok st2 →
      ∀ a ∈ st2.all_articles, a ∈ st.all_articles ∨
        ∃ s ∈ l, a.category = kw ++ " (source: " ++ s ++ ")" := by
  intro l
  induction l with
  | nil => intro st st2 h a ha; cases h; exact Or.inl ha
  | cons s rest ih =>
    intro st st2 h a ha
    simp only [processSources] at h
    cases hb : sourceBatch (kw ++ " (source: " ++ s ++ ")") now
        (fetch_news net key (kw ++ " source:" ++ s) fd td 50).1 st with
    | error e => rw [hb] at h; exact Except.noConfusion h
    | ok st1 =>
      rw [hb] at h
      rcases ih _ _ h a ha with hin | ⟨s2, hs2, hcat⟩
      · rcases sourceBatch_new_cat _ _ _ _ _ hb a hin with hin2 | hcat
        · exact Or.inl hin2
        · exact Or.inr ⟨s, List.mem_cons_self _ _, hcat⟩
      · exact Or.inr ⟨s2, List.mem_cons_of_mem _ hs2, hcat⟩

/-! ### C7 -/

/-- C7: an article accepted on a publisher-qualified query carries the
category `keyword ++ " (source: " ++ publisher ++ ")"`, and that
category never equals the bare keyword used for the unqualified
query: every article the source loop adds to the state is tagged with
the combined, distinguishable category. -/
theorem publisher_category_tagging :
    (∀ raw kw s now p,
      process_article raw (kw ++ " (source: " ++ s ++ ")") now =
        Except.ok p →
      p.category = kw ++ " (source: " ++ s ++ ")" ∧ p.category ≠ kw) ∧
    (∀ net key fd td now kw l st st2,
      (processSources net key fd td now kw l st).1 = Except.ok st2 →
      ∀ a ∈ st2.all_articles, a ∈ st.all_articles ∨
        ∃ s ∈ l, a.category = kw ++ " (source: " ++ s ++ ")" ∧
          a.category ≠ kw) := by
  constructor
  · intro raw kw s now p h
    have hc := (process_article_ok_shape _ _ _ _ h).1
    exact ⟨hc, hc ▸ cat_ne_keyword kw s⟩
  · intro net key fd td now kw l st st2 h a ha
    rcases processSources_new_cat net key fd td now kw l st st2 h a ha with
      hin | ⟨s, hs, hcat⟩
    · exact Or.inl hin
    · exact Or.inr ⟨s, hs, hcat, hcat ▸ cat_ne_keyword kw s⟩

/-- Witness for C7: `netOne` serves one raw article on the
publisher-qualified query for `capesize`/`reuters`; the article is
accepted with the combined category, which differs from the bare
keyword. -/
theorem publisher_category_tagging_witness :
    (sampleProcessed.category = "capesize" ++ " (source: " ++ "reuters" ++ ")" ∧
      sampleProcessed.category ≠ "capesize") ∧
    (sampleProcessed ∈ emptyState.all_articles ∨
      ∃ s ∈ ["reuters"],
        sampleProcessed.category = "capesize" ++ " (source: " ++ s ++ ")" ∧
          sampleProcessed.category ≠ "capesize") := by
  constructor
  · exact publisher_category_tagging.1 sampleArticle "capesize" "reuters"
      "2026-10-12T00:00:00" sampleProcessed rfl
  · exact publisher_category_tagging.2 netOne "k" "2025-10-05" "2025-10-12"
      "2026-10-12T00:00:00" "capesize" ["reuters"] emptyState
      sampleSourceState rfl sampleProcessed (List.mem_cons_self _ _)

/-! ### Trace lemmas -/

theorem processSources_trace (net : Params → Except String PyVal)
    (key fd td now kw : String) :
    ∀ l st,
      (processSources net key fd td now kw l st).1.isOk = true →
      (processSources net key fd td now kw l st).2.1 =
        l.map (fun s => (kw ++ " source:" ++ s, 50)) := by
  intro l
  induction l with
  | nil => intro st _; rfl
  | cons s rest ih =>
    intro st h
    simp only [processSources] at h ⊢
    cases hb : sourceBatch (kw ++ " (source: " ++ s ++ ")") now
        (fetch_news net key (kw ++ " source:" ++ s) fd td 50).1 st with
    | error e => rw [hb] at h; exact Bool.noConfusion h
    | ok st1 =>
      rw [hb] at h
      dsimp only at h ⊢
      simp only [List.map_cons, List.cons.injEq]
      exact ⟨trivial, ih st1 h⟩

theorem processKeyword_trace (net : Params → Except String PyVal)
    (key fd td now : String) (srcs : List String) (kw : String)
    (st : ScrapeState)
    (h : (processKeyword net key fd td now srcs kw st).1.isOk = true) :
    (processKeyword net key fd td now srcs kw st).2.1 =
      (kw, 100) :: srcs.map (fun s => (kw ++ " source:" ++ s, 50)) := by
  unfold processKeyword at h ⊢
  cases hb : bareBatch kw now
      (fetch_news net key kw fd td 100).1 st with
  | error e => rw [hb] at h; exact Bool.noConfusion h
  | ok p =>
    rw [hb] at h
    dsimp only at h ⊢
    simp only [List.cons.injEq]
    exact ⟨trivial, processSources_trace net key fd td now kw srcs p.1 h⟩

theorem processKeywords_trace (net : Params → Except String PyVal)
    (key fd td now : String) (srcs : List String) :
    ∀ l st,
      (processKeywords net key fd td now srcs l st).1.isOk = true →
      (processKeywords net key fd td now srcs l st).2.1 =
        expectedTrace l srcs := by
  intro l
  induction l with
  | nil => intro st _; rfl
  | cons kw rest ih =>
    intro st h
    simp only [processKeywords] at h ⊢
    cases hk : (processKeyword net key fd td now srcs kw st).1 with
    | error e => rw [hk] at h; exact Bool.noConfusion h
    | ok st1 =>
      rw [hk] at h
      dsimp only at h ⊢
      have hkw : (processKeyword net key fd td now srcs kw st).1.isOk = true := by
        rw [hk]; rfl
      rw [processKeyword_trace net key fd td now srcs kw st hkw, ih st1 h]
      simp [expectedTrace]

theorem expectedTrace_length (kws srcs : List String) :
    (expectedTrace kws srcs).length = kws.length * (1 + srcs.length) := by
  induction kws with
  | nil => simp [expectedTrace]
  | cons kw rest ih =>
    simp only [expectedTrace, List.map_cons, List.flatten, List.length_append,
      List.length_cons, List.length_map] at ih ⊢
    rw [ih]
    ring

/-! ### C8 -/

/-- C8: a run of `scrape_all_keywords` that completes performs exactly
`keywords.length * (1 + sources.length)` invocations of `fetch_news`,
in order one bare query per keyword followed by one query per
publisher, whatever the individual fetches return. -/
theorem scrape_call_count :
    ∀ net kws srcs key fd td now,
      (scrape_all_keywords net kws srcs key fd td now).1.isOk = true →
      (scrape_all_keywords net kws srcs key fd td now).2.1 =
        expectedTrace kws srcs ∧
      (scrape_all_keywords net kws srcs key fd td now).2.1.length =
        kws.length * (1 + srcs.length) := by
  intro net kws srcs key fd td now h
  unfold scrape_all_keywords at h ⊢
  cases hk : (processKeywords net key fd td now srcs kws
      { all_articles := [], seen_ids := [] }).1 with
  | error e => rw [hk] at h; exact Bool.noConfusion h
  | ok st =>
    rw [hk] at h
    dsimp only at h ⊢
    have hkw : (processKeywords net key fd td now srcs kws
        { all_articles := [], seen_ids := [] }).1.isOk = true := by
      rw [hk]; rfl
    have ht := processKeywords_trace net key fd td now srcs kws _ hkw
    exact ⟨ht, by rw [ht, expectedTrace_length]⟩

/-- Witness for C8: one keyword and one publisher over the all-failing
network: the completed run performed `1 * (1 + 1) = 2` fetches. -/
theorem scrape_call_count_witness :
    (scrape_all_keywords netFail ["capesize"] ["reuters"] "k"
        "2025-10-05" "2025-10-12" "2026-10-12T00:00:00").2.1 =
      expectedTrace ["capesize"] ["reuters"] ∧
    (scrape_all_keywords netFail ["capesize"] ["reuters"] "k"
        "2025-10-05" "2025-10-12" "2026-10-12T00:00:00").2.1.length =
      (["capesize"] : List String).length *
        (1 + (["reuters"] : List String).length) :=
  scrape_call_count netFail ["capesize"] ["reuters"] "k"
    "2025-10-05" "2025-10-12" "2026-10-12T00:00:00" rfl

/-! ### All-failures lemmas -/

theorem fetch_news_fail (net : Params → Except String PyVal)
    (key q fd td : String) (ps : Nat)
    (h : (net (mkParams q fd td ps key)).isOk = false) :
    (fetch_news net key q fd td ps).1 = Option.none := by
  unfold fetch_news
  cases hn : net (mkParams q fd td ps key) with
  | ok j => rw [hn] at h; exact Bool.noConfusion h
  | error e => rfl

theorem processSources_allfail (net : Params → Except String PyVal)
    (key fd td now kw : String)
    (hf : ∀ p, (net p).isOk = false) :
    ∀ l st, (processSources net key fd td now kw l st).1 = Except.ok st ∧
      (processSources net key fd td now kw l st).2.1 =
        l.map (fun s => (kw ++ " source:" ++ s, 50)) := by
  intro l
  induction l with
  | nil => intro st; exact ⟨rfl, rfl⟩
  | cons s rest ih =>
    intro st
    have hn : (fetch_news net key (kw ++ " source:" ++ s) fd td 50).1 =
        Option.none := fetch_news_fail net key _ fd td 50 (hf _)
    have hsb : sourceBatch (kw ++ " (source: " ++ s ++ ")") now
        (fetch_news net key (kw ++ " source:" ++ s) fd td 50).1 st =
        Except.ok st := by rw [hn]; rfl
    constructor
    · simp only [processSources]
      rw [hsb]
      dsimp only
      exact (ih st).1
    · simp only [processSources]
      rw [hsb]
      dsimp only
      rw [(ih st).2]
      rfl

theorem processKeyword_allfail (net : Params → Except String PyVal)
    (key fd td now : String) (srcs : List String) (kw : String)
    (st : ScrapeState) (hf : ∀ p, (net p).isOk = false) :
    (processKeyword net key fd td now srcs kw st).1 = Except.ok st ∧
    (processKeyword net key fd td now srcs kw st).2.1 =
      (kw, 100) :: srcs.map (fun s => (kw ++ " source:" ++ s, 50)) := by
  have hn : (fetch_news net key kw fd td 100).1 = Option.none :=
    fetch_news_fail net key kw fd td 100 (hf _)
  have hbb : bareBatch kw now (fetch_news net key kw fd td 100).1 st =
      Except.ok (st, []) := by rw [hn]; rfl
  constructor
  · unfold processKeyword
    rw [hbb]
    dsimp only
    exact (processSources_allfail net key fd td now kw hf srcs st).1
  · unfold processKeyword
    rw [hbb]
    dsimp only
    rw [(processSources_allfail net key fd td now kw hf srcs st).2]

theorem processKeywords_allfail (net : Params → Except String PyVal)
    (key fd td now : String) (srcs : List String)
    (hf : ∀ p, (net p).isOk = false) :
    ∀ l st, (processKeywords net key fd td now srcs l st).1 = Except.ok st ∧
      (processKeywords net key fd td now srcs l st).2.1 =
        expectedTrace l srcs := by
  intro l
  induction l with
  | nil => intro st; exact ⟨rfl, rfl⟩
  | cons kw rest ih =>
    intro st
    have hk := processKeyword_allfail net key fd td now srcs kw st hf
    constructor
    · simp only [processKeywords]
      rw [hk.1]
      dsimp only
      exact (ih st).1
    · simp only [processKeywords]
      rw [hk.1]
      dsimp only
      rw [hk.2, (ih st).2]
      simp [expectedTrace]

/-! ### C4 -/

/-- C4: for every query, date window and page size, `fetch_news`
returns the parsed payload on a successful request and, on any
transport or HTTP-level failure, logs the error line and returns the
no-data value; it is total, so no exception reaches the caller; and a
fetch failure never stops the run: over a network on which every
request fails, the scrape still completes (with an empty result) and
still issues every query of the keyword-publisher matrix. -/
theorem fetch_news_never_raises :
    (∀ net key q fd td (ps : Nat) j,
      net (mkParams q fd td ps key) = Except.ok j →
      fetch_news net key q fd td ps = (Option.some j, [])) ∧
    (∀ net key q fd td (ps : Nat) e,
      net (mkParams q fd td ps key) = Except.error e →
      fetch_news net key q fd td ps = (Option.none, [fetchErrorLog q e])) ∧
    (∀ net kws srcs key fd td now,
      (∀ p, (net p).isOk = false) →
      (scrape_all_keywords net kws srcs key fd td now).1 = Except.ok [] ∧
      (scrape_all_keywords net kws srcs key fd td now).2.1 =
        expectedTrace kws srcs) := by
  refine ⟨?_, ?_, ?_⟩
  · intro net key q fd td ps j h
    unfold fetch_news
    rw [h]
  · intro net key q fd td ps e h
    unfold fetch_news
    rw [h]
  · intro net kws srcs key fd td now hf
    have hk := processKeywords_allfail net key fd td now srcs hf kws
      { all_articles := [], seen_ids := [] }
    constructor
    · unfold scrape_all_keywords
      rw [hk.1]
    · unfold scrape_all_keywords
      rw [hk.1]
      dsimp only
      exact hk.2

/-- Witness for C4: a succeeding oracle, the failing oracle, and a
full (two-query) run over the failing oracle. -/
theorem fetch_news_never_raises_witness :
    fetch_news netNull "k" "q" "2025-10-05" "2025-10-12" 100 =
      (Option.some PyVal.none, []) ∧
    fetch_news netFail "k" "q" "2025-10-05" "2025-10-12" 100 =
      (Option.none, [fetchErrorLog "q" "connection error"]) ∧
    ((scrape_all_keywords netFail ["capesize"] ["reuters"] "k"
        "2025-10-05" "2025-10-12" "2026-10-12T00:00:00").1 = Except.ok [] ∧
      (scrape_all_keywords netFail ["capesize"] ["reuters"] "k"
          "2025-10-05" "2025-10-12" "2026-10-12T00:00:00").2.1 =
        expectedTrace ["capesize"] ["reuters"]) :=
  ⟨fetch_news_never_raises.1 netNull "k" "q" "2025-10-05" "2025-10-12" 100
      PyVal.none rfl,
   fetch_news_never_raises.2.1 netFail "k" "q" "2025-10-05" "2025-10-12" 100
      "connection error" rfl,
   fetch_news_never_raises.2.2 netFail ["capesize"] ["reuters"] "k"
      "2025-10-05" "2025-10-12" "2026-10-12T00:00:00" (fun _ => rfl)⟩
